import Mathlib

set_option maxRecDepth 10000

/-!
Verification of the wandering-risk engine of `ml_api.py`.

Python floats are modelled as rationals; `pyRound` models Python's
`round(x, n)` (round-half-to-even on the scaled value).  Python dicts
are modelled as insertion-ordered association lists with unique keys:
assigning to an existing key replaces its value in place (keeping its
position), assigning to a fresh key appends it at the end, exactly as
CPython dicts behave.  The wall clock (`datetime.now().hour`,
`time.time()`) enters the model as explicit `hour` / `now` parameters,
and the Firebase HTTP calls of the `/predict` handler are reified as an
explicit list of `Effect`s.
-/

namespace MLApi

/-- Round-half-to-even of a rational to an integer, as Python's `round`
does on the exact value. -/
def rhe (q : ℚ) : ℤ :=
  if q - ⌊q⌋ < 1/2 then ⌊q⌋
  else if 1/2 < q - ⌊q⌋ then ⌊q⌋ + 1
  else if ⌊q⌋ % 2 = 0 then ⌊q⌋ else ⌊q⌋ + 1

/-- Python's `round(q, n)`. -/
def pyRound (q : ℚ) (n : ℕ) : ℚ := (rhe (q * 10 ^ n) : ℚ) / 10 ^ n

/-- `m.get(k, d)` on an insertion-ordered dict. -/
def dictGet {α : Type} (m : List (String × α)) (k : String) (d : α) : α :=
  match m.find? (fun p => p.1 == k) with
  | some p => p.2
  | none => d

/-- `m[k] = v` on an insertion-ordered dict: replace in place if the key
exists, append otherwise. -/
def dictInsert {α : Type} (m : List (String × α)) (k : String) (v : α) :
    List (String × α) :=
  if m.any (fun p => p.1 == k) then
    m.map (fun p => if p.1 == k then (k, v) else p)
  else m ++ [(k, v)]

/-- `normalize_distance` from `ml_api.py`. -/
def normalize_distance (distance safe_radius : ℚ) : ℚ :=
  if safe_radius ≤ 0 then 0
  else min (distance / (safe_radius * 2)) 1

/-- `normalize_time` from `ml_api.py` (30 units → full risk). -/
def normalize_time (time_outside : ℚ) : ℚ :=
  min (time_outside / 30) 1

/-- `normalize_speed` from `ml_api.py`. -/
def normalize_speed (speed avg_speed : ℚ) : ℚ :=
  if avg_speed ≤ 0 then 0
  else min (speed / (avg_speed * (3/2))) 1

/-- `update_learning` from `ml_api.py`: incremental running average. -/
def update_learning (old_avg new_value : ℚ) (count : ℕ) : ℚ :=
  (old_avg * count + new_value) / (count + 1)

/-- The three-key weight vector `{distance, time, speed}`. -/
structure Weights where
  distance : ℚ
  time : ℚ
  speed : ℚ
deriving DecidableEq

/-- Sum of the three components of a weight vector. -/
def Weights.total (w : Weights) : ℚ := w.distance + w.time + w.speed

/-- `normalize_weights` from `ml_api.py`: divide by the total and round
each entry to 3 decimals; fall back to the default vector when the total
is not positive. -/
def normalize_weights (w : Weights) : Weights :=
  if w.total ≤ 0 then ⟨2/5, 2/5, 1/5⟩
  else ⟨pyRound (w.distance / w.total) 3,
        pyRound (w.time / w.total) 3,
        pyRound (w.speed / w.total) 3⟩

/-- `update_weights` from `ml_api.py`: learning-rate nudge towards the
observed feature magnitudes, floor at 0.05, renormalize. -/
def update_weights (w : Weights) (distance time_outside speed : ℚ) : Weights :=
  let lr : ℚ := 3/200
  let d := w.distance + lr * (distance / 10)
  let t := w.time + lr * (time_outside / 10)
  let s := w.speed + lr * (speed / 2)
  normalize_weights ⟨max d (1/20), max t (1/20), max s (1/20)⟩

/-- `night_time_boost` from `ml_api.py`, with `datetime.now().hour`
made an explicit parameter. -/
def night_time_boost (hour : ℕ) : ℚ :=
  if 22 ≤ hour ∨ hour < 5 then 3/20 else 0

/-- `context_boost` from `ml_api.py`. -/
def context_boost (battery : ℤ) (is_raining : Bool) (light_level : String) : ℚ :=
  (if battery ≤ 20 then (1/10 : ℚ) else 0) +
  (if is_raining then (1/10 : ℚ) else 0) +
  (if light_level == "low" then (2/25 : ℚ) else 0)

/-- `risk_trend_boost` from `ml_api.py`: needs at least two recorded
risks, then compares `current` against the last recorded value. -/
def risk_trend_boost (history : List (String × ℚ)) (current : ℚ) : ℚ :=
  if history.length < 2 then 0
  else
    match history.getLast? with
    | some p => if current - p.2 > 3/10 then 3/20 else 0
    | none => 0

/-- `update_risk_history` from `ml_api.py`: insert under the current
epoch-second key, keep the last 5 entries in insertion order. -/
def update_risk_history (history : List (String × ℚ)) (now : ℤ) (risk : ℚ) :
    List (String × ℚ) :=
  let h := dictInsert history (toString now) risk
  h.drop (h.length - 5)

/-- `get_zone_key` from `ml_api.py`: coordinates quantized to 3
decimals, joined by an underscore (an injective encoding of the rounded
pair stands in for Python's float formatting). -/
def get_zone_key (lat lon : ℚ) : String :=
  toString (rhe (lat * 1000)) ++ "_" ++ toString (rhe (lon * 1000))

/-- `update_zone_heatmap` from `ml_api.py`: increment the visit count of
`key`, keep the last 50 entries in insertion order. -/
def update_zone_heatmap (zone_map : List (String × ℤ)) (key : String) :
    List (String × ℤ) :=
  let m := dictInsert zone_map key (dictGet zone_map key 0 + 1)
  m.drop (m.length - 50)

/-- `zone_risk_boost` from `ml_api.py` (an empty map never contains the
key, so the `not zone_map or key not in zone_map` guard is exactly a
failed lookup). -/
def zone_risk_boost (zone_map : List (String × ℤ)) (key : String) : ℚ :=
  match zone_map.find? (fun p => p.1 == key) with
  | none => 1/20
  | some p => min ((p.2 : ℚ) * (1/100)) (3/20)

/-- The weight-correction part of `apply_feedback` from `ml_api.py`; the
feedback-clearing PATCH is reified as an `Effect` in `predict`. -/
def apply_feedback (w : Weights) (feedback : String) : Weights :=
  let w1 : Weights :=
    if feedback == "false_alarm" then ⟨w.distance - 1/20, w.time - 1/20, w.speed⟩
    else if feedback == "correct_alert" then ⟨w.distance + 1/20, w.time + 1/20, w.speed⟩
    else w
  normalize_weights w1

/-- `calculate_risk` from `ml_api.py`. -/
def calculate_risk (distance time_outside speed safe_radius avg_speed : ℚ)
    (w : Weights) (battery : ℤ) (is_raining : Bool) (light_level : String)
    (history : List (String × ℚ)) (zone_map : List (String × ℤ))
    (zone_key : String) (hour : ℕ) : ℚ :=
  let nd := normalize_distance distance safe_radius
  let nt := normalize_time time_outside
  let ns := normalize_speed speed avg_speed
  let base := w.distance * nd + w.time * nt + w.speed * ns
  let total := base + night_time_boost hour
      + context_boost battery is_raining light_level
      + risk_trend_boost history base
      + zone_risk_boost zone_map zone_key
  pyRound (min total 1) 2

/-- `should_send_alert` from `ml_api.py`; `prev` is the caller-supplied
`prevRiskLevel`, absent when the JSON field is missing. -/
def should_send_alert (prev : Option String) (lvl : String) : Bool :=
  (prev != some "alert") && (lvl == "alert")

/-- The risk-level thresholds inlined in `predict`. -/
def classify (risk : ℚ) : String :=
  if risk > 4/5 then "alert"
  else if risk > 3/5 then "warning"
  else "normal"

/-- The fields of the `/predict` JSON body that the handler reads. -/
structure RequestBody where
  patientId : Option String
  speed : ℚ
  distance : ℚ
  time_outside : ℤ
  latitude : ℚ
  longitude : ℚ
  battery : ℤ
  isRaining : Bool
  lightLevel : String
  feedback : Option String
  prevRiskLevel : Option String
deriving DecidableEq

/-- The stored patient record as the handler reads it (optional fields
fall back to the handler's defaults). -/
structure Patient where
  weights : Option Weights
  avgSpeed : Option ℚ
  samples : Option ℕ
  safeRadius : Option ℚ
  zoneHeatmap : List (String × ℤ)
  riskHistory : List (String × ℚ)
  fcmToken : Option String
deriving DecidableEq

/-- The JSON verdict `predict` returns; the early-exit defaults carry no
`triggerAlert` field. -/
structure Verdict where
  riskScore : ℚ
  riskLevel : String
  triggerAlert : Option Bool
deriving DecidableEq

/-- The outbound Firebase/FCM calls `predict` performs, in order. -/
inductive Effect where
  | clearFeedback (patientId : String)
  | patchLearning (patientId : String) (avgSpeed : ℚ) (samples : ℕ)
      (weights : Weights) (zoneHeatmap : List (String × ℤ))
      (riskHistory : List (String × ℚ)) (riskScore : ℚ)
  | push (token : String) (riskScore : ℚ)
  | postAlert (patientId : String) (riskScore : ℚ)
  | postPatientRisk (patientId : String) (riskScore : ℚ)
deriving DecidableEq

/-- The safe default response `{"riskScore": 0, "riskLevel": "normal"}`. -/
def defaultVerdict : Verdict := ⟨0, "normal", none⟩

/-- The `/predict` handler from `ml_api.py`, with the fetched patient
record, the wall-clock hour and the epoch time as explicit inputs, and
the outbound HTTP calls reified as `Effect`s. -/
def predict (body : Option RequestBody) (patient : Option Patient)
    (hour : ℕ) (now : ℤ) : Verdict × List Effect :=
  match body with
  | none => (defaultVerdict, [])
  | some d =>
    match d.patientId with
    | none => (defaultVerdict, [])
    | some pid =>
      if pid = "" then (defaultVerdict, [])
      else
        match patient with
        | none => (defaultVerdict, [])
        | some p =>
          let weights0 := normalize_weights (p.weights.getD ⟨2/5, 2/5, 1/5⟩)
          let avg_speed := p.avgSpeed.getD (max d.speed (1/10))
          let samples := p.samples.getD 0
          let safe_radius := max (p.safeRadius.getD 5) 1
          let zone_key := get_zone_key d.latitude d.longitude
          let zone_map := update_zone_heatmap p.zoneHeatmap zone_key
          let weights1 := update_weights weights0 d.distance (d.time_outside : ℚ) d.speed
          let fb := d.feedback.getD ""
          let weights2 := if fb = "" then weights1 else apply_feedback weights1 fb
          let fbEffects : List Effect := if fb = "" then [] else [.clearFeedback pid]
          let risk := calculate_risk d.distance (d.time_outside : ℚ) d.speed
              safe_radius avg_speed weights2 d.battery d.isRaining d.lightLevel
              p.riskHistory zone_map zone_key hour
          let history := update_risk_history p.riskHistory now risk
          let level := classify risk
          let pushEffects : List Effect :=
            if level = "alert" then
              match p.fcmToken with
              | some tok => if tok = "" then [] else [.push tok risk]
              | none => []
            else []
          let alertEffects : List Effect :=
            if level = "alert" ∧ should_send_alert d.prevRiskLevel level then
              [.postAlert pid risk, .postPatientRisk pid risk]
            else []
          (⟨risk, level, some (should_send_alert d.prevRiskLevel level)⟩,
            fbEffects
              ++ [.patchLearning pid (update_learning avg_speed d.speed samples)
                    (samples + 1) weights2 zone_map history risk]
              ++ pushEffects ++ alertEffects)

/-- Folding observations one at a time through `update_learning`,
starting from average 0 and sample count 0. -/
def learning_fold (vs : List ℚ) : ℚ × ℕ :=
  vs.foldl (fun st v => (update_learning st.1 v st.2, st.2 + 1)) (0, 0)

/-- A 51-entry zone heatmap whose oldest entry is the key `"0"`. -/
def bigZoneMap : List (String × ℤ) :=
  (List.range 51).map (fun i => (toString i, 1))

/-! ## Properties of the rounding model -/

theorem rhe_nonneg {q : ℚ} (h : 0 ≤ q) : 0 ≤ rhe q := by
  have hf : (0:ℤ) ≤ ⌊q⌋ := Int.floor_nonneg.2 h
  unfold rhe
  split
  · exact hf
  · split
    · omega
    · split
      · exact hf
      · omega

theorem rhe_le_int {q : ℚ} {c : ℤ} (h : q ≤ c) : rhe q ≤ c := by
  have hf : ⌊q⌋ ≤ c := by
    have h1 := Int.floor_le_floor h
    rwa [Int.floor_intCast] at h1
  unfold rhe
  split
  · exact hf
  · next h1 =>
    have h2 : (1:ℚ)/2 ≤ q - ⌊q⌋ := le_of_not_lt h1
    have h3 : (⌊q⌋ : ℚ) < q := by linarith
    have h4 : ⌊q⌋ < c := by exact_mod_cast h3.trans_le h
    split
    · omega
    · split
      · omega
      · omega

theorem abs_rhe_sub (q : ℚ) : |(rhe q : ℚ) - q| ≤ 1/2 := by
  have h0 : (⌊q⌋ : ℚ) ≤ q := Int.floor_le q
  have h1 : q < ⌊q⌋ + 1 := Int.lt_floor_add_one q
  unfold rhe
  split
  · next hr =>
    rw [abs_le]
    constructor <;> linarith
  · next hr =>
    have hr' : (1:ℚ)/2 ≤ q - ⌊q⌋ := le_of_not_lt hr
    split
    · next hr2 =>
      rw [abs_le]
      constructor <;> push_cast <;> linarith
    · next hr2 =>
      have hr3 : q - ⌊q⌋ ≤ 1/2 := le_of_not_lt hr2
      split
      · rw [abs_le]
        constructor <;> linarith
      · rw [abs_le]
        constructor <;> push_cast <;> linarith

theorem pyRound_nonneg {q : ℚ} (n : ℕ) (h : 0 ≤ q) : 0 ≤ pyRound q n := by
  unfold pyRound
  have h1 : (0:ℤ) ≤ rhe (q * 10 ^ n) := rhe_nonneg (by positivity)
  have h2 : ((0:ℤ) : ℚ) ≤ (rhe (q * 10 ^ n) : ℚ) := Int.cast_le.2 h1
  exact div_nonneg (by exact_mod_cast h2) (by positivity)

theorem pyRound_le_one {q : ℚ} (n : ℕ) (h : q ≤ 1) : pyRound q n ≤ 1 := by
  unfold pyRound
  have hp : (0:ℚ) < 10 ^ n := by positivity
  have h1 : q * 10 ^ n ≤ ((10 ^ n : ℤ) : ℚ) := by
    push_cast
    nlinarith
  have h2 : rhe (q * 10 ^ n) ≤ (10:ℤ) ^ n := rhe_le_int h1
  rw [div_le_one hp]
  exact_mod_cast h2

theorem abs_pyRound_sub (q : ℚ) (n : ℕ) :
    |pyRound q n - q| ≤ 1 / (2 * 10 ^ n) := by
  unfold pyRound
  have hp : (0:ℚ) < 10 ^ n := by positivity
  have key : (rhe (q * 10 ^ n) : ℚ) / 10 ^ n - q =
      ((rhe (q * 10 ^ n) : ℚ) - q * 10 ^ n) / 10 ^ n := by
    field_simp
    ring
  rw [key, abs_div, abs_of_pos hp, div_le_div_iff₀ hp (by positivity)]
  have h2 := abs_rhe_sub (q * 10 ^ n)
  nlinarith [abs_nonneg ((rhe (q * 10 ^ n) : ℚ) - q * 10 ^ n)]

/-! ## Properties of weight renormalization -/

theorem normalize_weights_total (w : Weights) :
    |(normalize_weights w).total - 1| ≤ 3/2000 := by
  unfold normalize_weights
  split
  · next h =>
    simp only [Weights.total]
    rw [abs_le]
    constructor <;> norm_num
  · next h =>
    have hT : (0:ℚ) < w.total := lt_of_not_le h
    have hsum : w.distance / w.total + w.time / w.total + w.speed / w.total = 1 := by
      rw [div_add_div_same, div_add_div_same]
      exact div_self hT.ne'
    have h1 := abs_pyRound_sub (w.distance / w.total) 3
    have h2 := abs_pyRound_sub (w.time / w.total) 3
    have h3 := abs_pyRound_sub (w.speed / w.total) 3
    norm_num at h1 h2 h3
    simp only [Weights.total] at h1 h2 h3 hsum ⊢
    rw [abs_le] at h1 h2 h3 ⊢
    constructor <;> linarith

theorem normalize_weights_nonneg (w : Weights) (hd : 0 ≤ w.distance)
    (ht : 0 ≤ w.time) (hs : 0 ≤ w.speed) :
    0 ≤ (normalize_weights w).distance ∧ 0 ≤ (normalize_weights w).time ∧
      0 ≤ (normalize_weights w).speed := by
  unfold normalize_weights
  split
  · norm_num
  · next h =>
    have hT : (0:ℚ) < w.total := lt_of_not_le h
    exact ⟨pyRound_nonneg 3 (div_nonneg hd hT.le),
      pyRound_nonneg 3 (div_nonneg ht hT.le),
      pyRound_nonneg 3 (div_nonneg hs hT.le)⟩

/-- C2: after `update_weights` every component is non-negative and the
components sum to 1 within the 3-decimal rounding error 0.0015; after
`apply_feedback` (any label) the components also sum to 1 within 0.0015.
The spec's stronger claims — a 1e-6 sum tolerance, a post-renormalization
0.05 floor, and non-negativity after feedback — are refuted by
`c2_floor_counterexample`. -/
theorem c2_weight_invariant (w : Weights) (d t s : ℚ) (fb : String) :
    (0 ≤ (update_weights w d t s).distance ∧ 0 ≤ (update_weights w d t s).time ∧
      0 ≤ (update_weights w d t s).speed) ∧
    |(update_weights w d t s).total - 1| ≤ 3/2000 ∧
    |(apply_feedback w fb).total - 1| ≤ 3/2000 := by
  refine ⟨?_, ?_, ?_⟩
  · unfold update_weights
    exact normalize_weights_nonneg _
      (le_trans (by norm_num) (le_max_right _ _))
      (le_trans (by norm_num) (le_max_right _ _))
      (le_trans (by norm_num) (le_max_right _ _))
  · unfold update_weights
    exact normalize_weights_total _
  · unfold apply_feedback
    exact normalize_weights_total _

/-- C2 counterexample: renormalization breaks the claimed invariants —
the sum misses 1.0 by 0.001 (beyond the claimed 1e-6), a component drops
below the 0.05 floor, and `false_alarm` feedback drives one negative. -/
theorem c2_floor_counterexample :
    (update_weights ⟨333/1000, 333/1000, 333/1000⟩ 0 0 0).total = 999/1000 ∧
    ¬(|(999/1000 : ℚ) - 1| ≤ 1/1000000) ∧
    (update_weights ⟨2/5, 2/5, 1/5⟩ 10000 30 0).time = 7/250 ∧
    (7/250 : ℚ) < 1/20 ∧
    (apply_feedback (update_weights ⟨2/5, 2/5, 1/5⟩ 10000 30 0) "false_alarm").time
      = -3/125 ∧
    (-3/125 : ℚ) < 0 := by
  refine ⟨?_, ?_, ?_, ?_, ?_, ?_⟩
  · with_unfolding_all decide
  · rw [abs_le]
    norm_num
  · with_unfolding_all decide
  · norm_num
  · with_unfolding_all decide
  · norm_num

/-! ## Non-negativity of the aggregate's terms -/

theorem normalize_distance_nonneg {d r : ℚ} (hd : 0 ≤ d) :
    0 ≤ normalize_distance d r := by
  unfold normalize_distance
  split
  · exact le_refl 0
  · next h =>
    have hr : (0:ℚ) < r := lt_of_not_le h
    exact le_min (div_nonneg hd (by linarith)) zero_le_one

theorem normalize_time_nonneg {t : ℚ} (ht : 0 ≤ t) : 0 ≤ normalize_time t := by
  unfold normalize_time
  exact le_min (div_nonneg ht (by norm_num)) zero_le_one

theorem normalize_speed_nonneg {s a : ℚ} (hs : 0 ≤ s) :
    0 ≤ normalize_speed s a := by
  unfold normalize_speed
  split
  · exact le_refl 0
  · next h =>
    have ha : (0:ℚ) < a := lt_of_not_le h
    exact le_min (div_nonneg hs (by linarith)) zero_le_one

theorem night_time_boost_nonneg (hour : ℕ) : 0 ≤ night_time_boost hour := by
  unfold night_time_boost
  split <;> norm_num

theorem context_boost_nonneg (battery : ℤ) (is_raining : Bool)
    (light_level : String) : 0 ≤ context_boost battery is_raining light_level := by
  unfold context_boost
  split_ifs <;> norm_num

theorem risk_trend_boost_nonneg (history : List (String × ℚ)) (current : ℚ) :
    0 ≤ risk_trend_boost history current := by
  unfold risk_trend_boost
  split
  · exact le_refl 0
  · cases history.getLast? with
    | none => exact le_refl 0
    | some p =>
      dsimp only
      split <;> norm_num

theorem zone_risk_boost_nonneg (zone_map : List (String × ℤ)) (key : String)
    (hz : ∀ p ∈ zone_map, (0:ℤ) ≤ p.2) : 0 ≤ zone_risk_boost zone_map key := by
  unfold zone_risk_boost
  cases hf : zone_map.find? (fun p => p.1 == key) with
  | none => norm_num
  | some p =>
    have hp : p ∈ zone_map := List.mem_of_find?_eq_some hf
    have h2 : (0:ℤ) ≤ p.2 := hz p hp
    have h3 : (0:ℚ) ≤ (p.2 : ℚ) := by exact_mod_cast h2
    exact le_min (by positivity) (by norm_num)

/-- C1: the returned risk score never exceeds 1 (the `min` ceiling), and
it is non-negative whenever the telemetry, the weight components and the
stored zone counts are all non-negative.  The spec's stronger claim that
the lower bound holds for every reachable weight vector is refuted by
`c1_negative_risk_counterexample`: `false_alarm` feedback can drive a
weight component negative and the final score below 0. -/
theorem c1_risk_score_bounds (distance time_outside speed safe_radius avg_speed : ℚ)
    (w : Weights) (battery : ℤ) (is_raining : Bool) (light_level : String)
    (history : List (String × ℚ)) (zone_map : List (String × ℤ))
    (zone_key : String) (hour : ℕ) :
    calculate_risk distance time_outside speed safe_radius avg_speed w battery
      is_raining light_level history zone_map zone_key hour ≤ 1 ∧
    (0 ≤ distance → 0 ≤ time_outside → 0 ≤ speed →
      0 ≤ w.distance → 0 ≤ w.time → 0 ≤ w.speed →
      (∀ p ∈ zone_map, (0:ℤ) ≤ p.2) →
      0 ≤ calculate_risk distance time_outside speed safe_radius avg_speed w
        battery is_raining light_level history zone_map zone_key hour) := by
  constructor
  · unfold calculate_risk
    exact pyRound_le_one 2 (min_le_right _ _)
  · intro hd ht hs hwd hwt hws hz
    unfold calculate_risk
    apply pyRound_nonneg
    apply le_min _ zero_le_one
    have hnd := normalize_distance_nonneg (r := safe_radius) hd
    have hnt := normalize_time_nonneg ht
    have hns := normalize_speed_nonneg (a := avg_speed) hs
    have hbase : 0 ≤ w.distance * normalize_distance distance safe_radius +
        w.time * normalize_time time_outside +
        w.speed * normalize_speed speed avg_speed := by
      have := mul_nonneg hwd hnd
      have := mul_nonneg hwt hnt
      have := mul_nonneg hws hns
      linarith
    have hb1 := night_time_boost_nonneg hour
    have hb2 := context_boost_nonneg battery is_raining light_level
    have hb3 := risk_trend_boost_nonneg history
      (w.distance * normalize_distance distance safe_radius +
        w.time * normalize_time time_outside +
        w.speed * normalize_speed speed avg_speed)
    have hb4 := zone_risk_boost_nonneg zone_map zone_key hz
    linarith

/-- C1 witness: concrete bound instances obtained from
`c1_risk_score_bounds`. -/
theorem c1_risk_score_bounds_witness :
    calculate_risk 250 600 (6/5) 200 1 ⟨1/2, 3/10, 1/5⟩ 100 false "normal"
      [] [] "z" 12 ≤ 1 ∧
    0 ≤ calculate_risk 250 600 (6/5) 200 1 ⟨1/2, 3/10, 1/5⟩ 100 false "normal"
      [] [] "z" 12 := by
  refine ⟨(c1_risk_score_bounds 250 600 (6/5) 200 1 ⟨1/2, 3/10, 1/5⟩ 100 false
      "normal" [] [] "z" 12).1,
    (c1_risk_score_bounds 250 600 (6/5) 200 1 ⟨1/2, 3/10, 1/5⟩ 100 false
      "normal" [] [] "z" 12).2 (by norm_num) (by norm_num) (by norm_num)
      (by norm_num) (by norm_num) (by norm_num) ?_⟩
  intro p hp
  simp at hp

/-- C1 counterexample: a fully reachable request (default stored weights,
`false_alarm` feedback, large distance, huge safe radius, daytime hour)
whose returned risk score is -0.01, violating the claimed lower bound. -/
theorem c1_negative_risk_counterexample :
    (predict (some ⟨some "p", 0, 10000, 30, 0, 0, 100, false, "normal",
        some "false_alarm", none⟩)
      (some ⟨none, some 1, some 0, some 1000000000, [], [], none⟩)
      12 0).1.riskScore = -1/100 ∧
    ¬(0 ≤ (-1/100 : ℚ)) := by
  constructor
  · with_unfolding_all decide
  · norm_num

/-- C3: `triggerAlert` is true exactly on a transition into `alert`:
the caller-supplied previous level is not `alert` and the new level is
`alert`. -/
theorem c3_alert_transition (prev : Option String) (lvl : String) :
    should_send_alert prev lvl = true ↔ prev ≠ some "alert" ∧ lvl = "alert" := by
  simp [should_send_alert]

/-- C4: a malformed body (non-dict payload or missing patient id) or an
absent patient record yields the safe default verdict and no outbound
effect at all: no store mutation and no push. -/
theorem c4_safe_default (body : Option RequestBody) (patient : Option Patient)
    (hour : ℕ) (now : ℤ)
    (h : body = none ∨
      (∃ d, body = some d ∧ (d.patientId = none ∨ d.patientId = some "")) ∨
      patient = none) :
    predict body patient hour now = (defaultVerdict, []) := by
  rcases h with rfl | ⟨d, rfl, hd⟩ | rfl
  · rfl
  · rcases hd with h1 | h1 <;> simp [predict, h1]
  · cases body with
    | none => rfl
    | some d =>
      cases hp : d.patientId with
      | none => simp [predict, hp]
      | some pid =>
        by_cases hpid : pid = ""
        · simp [predict, hp, hpid]
        · simp [predict, hp, hpid]

/-- C4 witness: the default path taken on a request whose body fails to
parse. -/
theorem c4_safe_default_witness :
    predict none (some ⟨none, none, none, none, [], [], none⟩) 12 0 =
      (defaultVerdict, []) :=
  c4_safe_default none (some ⟨none, none, none, none, [], [], none⟩) 12 0
    (Or.inl rfl)

/-- C5: after any single update the risk history holds at most 5 entries
and the zone heatmap at most 50, whatever the size of the inputs; both
results are suffixes of the freshly written dict, so eviction always
drops the oldest-inserted entries first. -/
theorem c5_history_caps (history : List (String × ℚ)) (now : ℤ) (risk : ℚ)
    (zone_map : List (String × ℤ)) (key : String) :
    (update_risk_history history now risk).length ≤ 5 ∧
    (update_risk_history history now risk).IsSuffix
      (dictInsert history (toString now) risk) ∧
    (update_zone_heatmap zone_map key).length ≤ 50 ∧
    (update_zone_heatmap zone_map key).IsSuffix
      (dictInsert zone_map key (dictGet zone_map key 0 + 1)) := by
  unfold update_risk_history update_zone_heatmap
  refine ⟨?_, List.drop_suffix _ _, ?_, List.drop_suffix _ _⟩
  · rw [List.length_drop]
    omega
  · rw [List.length_drop]
    omega

/-- Invariant of the learning fold: the running state tracks the count
and the total of all folded values. -/
theorem learning_fold_invariant (vs : List ℚ) : ∀ (a : ℚ) (n : ℕ),
    (vs.foldl (fun st v => (update_learning st.1 v st.2, st.2 + 1)) (a, n)).2 =
      n + vs.length ∧
    (vs.foldl (fun st v => (update_learning st.1 v st.2, st.2 + 1)) (a, n)).1 *
      ((n : ℚ) + vs.length) = a * n + vs.sum := by
  induction vs with
  | nil =>
    intro a n
    simp
  | cons v rest ih =>
    intro a n
    simp only [List.foldl_cons, List.length_cons, List.sum_cons]
    obtain ⟨ih2, ih1⟩ := ih (update_learning a v n) (n + 1)
    constructor
    · rw [ih2]
      omega
    · have hne : ((n : ℚ) + 1) ≠ 0 := by positivity
      have hcancel : update_learning a v n * ((n : ℚ) + 1) = a * n + v := by
        unfold update_learning
        field_simp
      have hcast : (((n + 1 : ℕ)) : ℚ) = (n : ℚ) + 1 := by push_cast; ring
      rw [hcast] at ih1
      rw [hcancel] at ih1
      have : ((n : ℚ) + ((rest.length : ℚ) + 1)) = (n : ℚ) + 1 + rest.length := by
        ring
      push_cast
      linarith [ih1]

/-- C6: folding N observations through `update_learning`, starting from
average 0 and count 0, yields exactly the arithmetic mean (over exact
rational arithmetic) and the count N. -/
theorem c6_running_average (vs : List ℚ) (h : vs ≠ []) :
    (learning_fold vs).1 = vs.sum / vs.length ∧
    (learning_fold vs).2 = vs.length := by
  obtain ⟨h2, h1⟩ := learning_fold_invariant vs 0 0
  have hlen : (0:ℚ) < vs.length := by
    have := List.length_pos.2 h
    exact_mod_cast this
  constructor
  · rw [eq_div_iff hlen.ne']
    simpa [learning_fold] using h1
  · simpa [learning_fold] using h2

/-- C6 witness: the mean of three concrete observations. -/
theorem c6_running_average_witness :
    ([1, 2, 3] : List ℚ) ≠ [] ∧
    (learning_fold [1, 2, 3]).1 = ([1, 2, 3] : List ℚ).sum / ([1, 2, 3] : List ℚ).length := by
  refine ⟨by simp, (c6_running_average [1, 2, 3] (by simp)).1⟩

/-- C7: each normalizer is non-decreasing in its raw input, all other
arguments held fixed (distance and speed under the positivity guards the
code tests). -/
theorem c7_normalizer_monotone :
    (∀ r d1 d2 : ℚ, 0 < r → d1 ≤ d2 →
      normalize_distance d1 r ≤ normalize_distance d2 r) ∧
    (∀ t1 t2 : ℚ, t1 ≤ t2 → normalize_time t1 ≤ normalize_time t2) ∧
    (∀ a s1 s2 : ℚ, 0 < a → s1 ≤ s2 →
      normalize_speed s1 a ≤ normalize_speed s2 a) := by
  refine ⟨?_, ?_, ?_⟩
  · intro r d1 d2 hr h
    unfold normalize_distance
    rw [if_neg (not_le.2 hr), if_neg (not_le.2 hr)]
    refine min_le_min ?_ le_rfl
    gcongr
  · intro t1 t2 h
    unfold normalize_time
    refine min_le_min ?_ le_rfl
    linarith
  · intro a s1 s2 ha h
    unfold normalize_speed
    rw [if_neg (not_le.2 ha), if_neg (not_le.2 ha)]
    refine min_le_min ?_ le_rfl
    gcongr

/-- C7 witness: concrete monotonicity instances from
`c7_normalizer_monotone`. -/
theorem c7_normalizer_monotone_witness :
    (0:ℚ) < 10 ∧ (5:ℚ) ≤ 7 ∧
    normalize_distance 5 10 ≤ normalize_distance 7 10 ∧
    normalize_time 5 ≤ normalize_time 7 ∧
    normalize_speed 5 10 ≤ normalize_speed 7 10 :=
  ⟨by norm_num, by norm_num,
    c7_normalizer_monotone.1 10 5 7 (by norm_num) (by norm_num),
    c7_normalizer_monotone.2.1 5 7 (by norm_num),
    c7_normalizer_monotone.2.2 10 5 7 (by norm_num) (by norm_num)⟩

/-- The scenario risk of C8 as a function of the hour: 0.97 during the
nocturnal window, 0.82 otherwise — above the alert threshold either way. -/
theorem c8_scenario_risk (hour : ℕ) :
    calculate_risk 250 600 (6/5) 200 1 ⟨1/2, 3/10, 1/5⟩ 100 false "normal"
      [] [] "z" hour =
      if 22 ≤ hour ∨ hour < 5 then 97/100 else 41/50 := by
  by_cases h : 22 ≤ hour ∨ hour < 5
  · rw [if_pos h]
    have hb : night_time_boost hour = 3/20 := by
      unfold night_time_boost
      rw [if_pos h]
    simp only [calculate_risk, hb]
    with_unfolding_all decide
  · rw [if_neg h]
    have hb : night_time_boost hour = 0 := by
      unfold night_time_boost
      rw [if_neg h]
    simp only [calculate_risk, hb]
    with_unfolding_all decide

/-- C8: for the end-to-end scenario (distance 250, 600 time units
outside, speed 1.2, safe radius 200, average speed 1, weights
(0.5, 0.3, 0.2), full battery, no rain, normal light, empty history and
zone map) the normalized distance is 0.625 — not 1.0, since saturation
sits at twice the safe radius — the time normalizer is capped at 1, the
speed normalizer gives 0.8 (below its cap), and the final score (0.82 by
day, 0.97 at night) classifies as `alert` at any hour. -/
theorem c8_scenario (hour : ℕ) :
    normalize_distance 250 200 = 5/8 ∧ normalize_time 600 = 1 ∧
    normalize_speed (6/5) 1 = 4/5 ∧
    classify (calculate_risk 250 600 (6/5) 200 1 ⟨1/2, 3/10, 1/5⟩ 100 false
      "normal" [] [] "z" hour) = "alert" := by
  refine ⟨by with_unfolding_all decide, by with_unfolding_all decide,
    by with_unfolding_all decide, ?_⟩
  rw [c8_scenario_risk hour]
  by_cases h : 22 ≤ hour ∨ hour < 5
  · rw [if_pos h]
    with_unfolding_all decide
  · rw [if_neg h]
    with_unfolding_all decide

/-- C8 counterexample: the claimed saturated normalized distance of 1.0
is wrong — the code saturates at twice the safe radius, so 250 m against
a 200 m radius normalizes to 0.625; the speed feature (0.8) is below its
cap as well. -/
theorem c8_saturation_counterexample :
    normalize_distance 250 200 = 5/8 ∧ (5/8 : ℚ) ≠ 1 ∧
    normalize_speed (6/5) 1 = 4/5 ∧ (4/5 : ℚ) < 1 := by
  refine ⟨by with_unfolding_all decide, by norm_num, by with_unfolding_all decide,
    by norm_num⟩

/-- C9: the trend booster returns 0 for an empty or single-entry history
— two recorded risks are required before any comparison happens — and
for a history of at least two entries it compares against the last
recorded value, returning 0.15 exactly when the increase exceeds 0.3. -/
theorem c9_trend_needs_two (c : ℚ) :
    risk_trend_boost [] c = 0 ∧
    (∀ (k : String) (v : ℚ), risk_trend_boost [(k, v)] c = 0) ∧
    (∀ (l : List (String × ℚ)) (k : String) (v : ℚ), l ≠ [] →
      risk_trend_boost (l ++ [(k, v)]) c =
        if c - v > 3/10 then 3/20 else 0) := by
  refine ⟨rfl, fun k v => rfl, fun l k v hl => ?_⟩
  unfold risk_trend_boost
  rw [if_neg]
  · have hlast : (l ++ [(k, v)]).getLast? = some (k, v) := by
      simp [List.getLast?_append]
    rw [hlast]
  · have : 0 < l.length := List.length_pos.2 hl
    simp only [List.length_append, List.length_singleton]
    omega

/-- C9 witness: a two-entry history does trigger the comparison. -/
theorem c9_trend_needs_two_witness :
    ([("a", (0:ℚ))] : List (String × ℚ)) ≠ [] ∧
    risk_trend_boost ([("a", (0:ℚ))] ++ [("b", (1/10:ℚ))]) (1/2) =
      if (1/2:ℚ) - 1/10 > 3/10 then 3/20 else 0 :=
  ⟨by simp, (c9_trend_needs_two (1/2)).2.2 [("a", 0)] "b" (1/10) (by simp)⟩

/-- C9 counterexample: a single recorded risk is not enough — the
increase 0.5 exceeds the 0.3 threshold yet the boost is 0, not 0.15. -/
theorem c9_single_entry_counterexample :
    risk_trend_boost [("t", (0:ℚ))] (1/2) = 0 ∧
    (1/2:ℚ) - 0 > 3/10 ∧
    risk_trend_boost [("t", (0:ℚ))] (1/2) ≠ 3/20 := by
  refine ⟨rfl, by norm_num, ?_⟩
  rw [show risk_trend_boost [("t", (0:ℚ))] (1/2) = 0 from rfl]
  norm_num

/-! ## Dict lemmas for the zone heatmap -/

theorem dictInsert_of_absent {α : Type} (m : List (String × α)) (k : String)
    (v : α) (h : m.find? (fun p => p.1 == k) = none) :
    dictInsert m k v = m ++ [(k, v)] := by
  unfold dictInsert
  rw [if_neg]
  intro hc
  obtain ⟨p, hp, hpk⟩ := List.any_eq_true.1 hc
  exact (List.find?_eq_none.1 h) p hp hpk

theorem find?_append_singleton {α : Type} (m : List (String × α)) (k : String)
    (v : α) (h : ∀ p ∈ m, ¬((p.1 == k) = true)) :
    (m ++ [(k, v)]).find? (fun p => p.1 == k) = some (k, v) := by
  rw [List.find?_append, List.find?_eq_none.2 h]
  simp

theorem find?_map_replace {α : Type} (k : String) (v : α)
    (m : List (String × α)) :
    m.any (fun p => p.1 == k) = true →
    (m.map (fun p => if p.1 == k then (k, v) else p)).find?
      (fun p => p.1 == k) = some (k, v) := by
  induction m with
  | nil =>
    intro h
    simp at h
  | cons p rest ih =>
    intro h
    by_cases hp : (p.1 == k) = true
    · have hf : (fun (q : String × α) => q.1 == k) (k, v) = true := by simp
      simp only [List.map_cons, if_pos hp]
      exact List.find?_cons_of_pos _ hf
    · have hrest : rest.any (fun p => p.1 == k) = true := by
        simp only [List.any_cons, hp, Bool.false_or] at h
        exact h
      simp only [List.map_cons, if_neg hp]
      have hstep : List.find? (fun q => q.1 == k)
          (p :: rest.map (fun q => if q.1 == k then (k, v) else q)) =
          List.find? (fun q => q.1 == k)
            (rest.map (fun q => if q.1 == k then (k, v) else q)) :=
        List.find?_cons_of_neg _ hp
      exact hstep.trans (ih hrest)

/-- C10: the key just visited is guaranteed to survive the 50-entry
truncation — with its count incremented by one — whenever it was absent
from the stored map (it is appended at the end) or the stored map has at
most 50 entries.  The unconditional claim is refuted by
`c10_eviction_counterexample`: re-visiting the oldest key of a map that
already has more than 50 entries evicts that very key, because updating
an existing key keeps its insertion position. -/
theorem c10_visited_key_retained (m : List (String × ℤ)) (k : String)
    (h : m.find? (fun p => p.1 == k) = none ∨ m.length ≤ 50) :
    (update_zone_heatmap m k).find? (fun p => p.1 == k) =
      some (k, dictGet m k 0 + 1) := by
  simp only [update_zone_heatmap]
  by_cases habs : m.find? (fun p => p.1 == k) = none
  · rw [dictInsert_of_absent m k _ habs]
    have hle : (m ++ [(k, dictGet m k 0 + 1)]).length - 50 ≤ m.length := by
      simp only [List.length_append, List.length_singleton]
      omega
    rw [List.drop_append_of_le_length hle]
    apply find?_append_singleton
    intro p hp
    exact (List.find?_eq_none.1 habs) p (List.mem_of_mem_drop hp)
  · have hlen : m.length ≤ 50 := h.resolve_left habs
    have hany : m.any (fun p => p.1 == k) = true := by
      rw [List.any_eq_true]
      cases hf : m.find? (fun p => p.1 == k) with
      | none => exact absurd hf habs
      | some p =>
        have hmem := List.mem_of_find?_eq_some hf
        have hpred := List.find?_some hf
        exact ⟨p, hmem, hpred⟩
    have hins : dictInsert m k (dictGet m k 0 + 1) =
        m.map (fun p => if p.1 == k then (k, dictGet m k 0 + 1) else p) := by
      unfold dictInsert
      rw [if_pos hany]
    rw [hins, List.length_map]
    have h0 : m.length - 50 = 0 := by omega
    rw [h0, List.drop_zero]
    exact find?_map_replace k _ m hany

/-- C10 witness: visiting a fresh key of a small map retains it. -/
theorem c10_visited_key_retained_witness :
    (([("a", (1:ℤ))] : List (String × ℤ)).find? (fun p => p.1 == "b") = none ∨
      ([("a", (1:ℤ))] : List (String × ℤ)).length ≤ 50) ∧
    (update_zone_heatmap [("a", (1:ℤ))] "b").find? (fun p => p.1 == "b") =
      some ("b", dictGet [("a", (1:ℤ))] "b" 0 + 1) :=
  ⟨Or.inl (by with_unfolding_all decide),
    c10_visited_key_retained [("a", (1:ℤ))] "b"
      (Or.inl (by with_unfolding_all decide))⟩

/-- C10 counterexample: on a 51-entry map whose oldest key is `"0"`,
recording a fresh visit to `"0"` evicts that very key — the returned map
no longer contains it. -/
theorem c10_eviction_counterexample :
    bigZoneMap.length = 51 ∧
    dictGet bigZoneMap "0" 0 = 1 ∧
    (update_zone_heatmap bigZoneMap "0").find? (fun p => p.1 == "0") = none := by
  refine ⟨by with_unfolding_all decide, by with_unfolding_all decide,
    by with_unfolding_all decide⟩

end MLApi
